import Mathlib

/-!
Shallow embedding of the profiling core of `tech-paws/debug-systems`
(`src/profiler.rs`) and proofs about the frozen claims.

Modelling conventions:
* Durations (`std::time::Duration`) are nanosecond counts, modelled as `Nat`
  (`Duration::as_nanos` is a `u128`; all sums here stay far below `2^128`,
  and `Duration` addition in Rust panics rather than wraps on overflow, so
  unbounded `Nat` is the faithful idealization on the reachable range).
* `Instant`-based time is an external input: the elapsed duration measured by
  a timer is passed to each operation as an explicit argument.
* `thread::ThreadId` is opaque; it is modelled as a `Nat` passed in by the
  caller ("the current thread").
* `hits: u32` and the other small counters are modelled as `Nat`; their
  values are bounded by the number of operations performed, and no claim is
  about wrap-around behaviour.
* The `percent: f32` field is modelled as `Option ℚ`: `some q` is a finite
  value (exact rational arithmetic idealizes the `f64`/`f32` rounding), and
  `none` models the IEEE non-finite results (`0.0 / 0.0 = NaN`) produced by
  `take_snapshot` when the total elapsed time is zero.
* Rust's `HashMap<String, _>` used by `take_snapshot` is modelled as an
  association list in first-insertion order (the real iteration order of
  `HashMap::values` is unspecified; every property proved about the record
  sequence is either order-insensitive or about the explicitly sorted output).
* `records.sort_by(|a, b| b.percent.partial_cmp(&a.percent).unwrap())`
  panics when two records with non-finite (`NaN`) percents are compared:
  `partial_cmp` returns `None` and `unwrap` panics. A sort of two or more
  records whose percents are all `NaN` (which is exactly the case
  `total_elapsed = 0` with at least two accumulators) always performs at
  least one such comparison, so `take_snapshot` is modelled as returning
  `Option ProfileState`, `none` meaning the panic.
-/

/-- `PERFORMANCE_COUNTER_LOG_SIZE` in `profiler.rs`. -/
def PERFORMANCE_COUNTER_LOG_SIZE : Nat := 120

/-- `PERFORMANCE_COUNTER_STATE_SIZE` in `profiler.rs` (slot-array capacity). -/
def PERFORMANCE_COUNTER_STATE_SIZE : Nat := 60

/-- `ClocsDebugRecord`: one raw timing record inside a frame sample slot. -/
structure ClocsDebugRecord where
  name : String
  file_name : String
  line : Nat
  elapsed : Nat
  hits : Nat
  thread_id : Nat
deriving Repr, DecidableEq

instance : Inhabited ClocsDebugRecord :=
  ⟨{ name := "", file_name := "", line := 0, elapsed := 0, hits := 0, thread_id := 0 }⟩

/-- `PerformanceCounterState`: the records of one frame sample slot. -/
structure PerformanceCounterState where
  records : List ClocsDebugRecord
deriving Repr, DecidableEq

instance : Inhabited PerformanceCounterState := ⟨⟨[]⟩⟩

/-- `PerformanceCounterStatisticsRecord`: one aggregated statistics row. -/
structure PerformanceCounterStatisticsRecord where
  name : String
  file_name : String
  line : Nat
  sum_elapsed : Nat
  sum_hits : Nat
  sum_hits_over_elapsed : Nat
  hits : Nat
  percent : Option ℚ
  thread_id : Nat
deriving Repr, DecidableEq

/-- Rust `Default` for the statistics record (`percent` defaults to `0.0`,
a finite value). -/
instance : Inhabited PerformanceCounterStatisticsRecord :=
  ⟨{ name := "", file_name := "", line := 0, sum_elapsed := 0, sum_hits := 0,
     sum_hits_over_elapsed := 0, hits := 0, percent := some 0, thread_id := 0 }⟩

/-- `PerformanceCounterStatistics`: one snapshot entry of the statistics log. -/
structure PerformanceCounterStatistics where
  records : List PerformanceCounterStatisticsRecord
deriving Repr, DecidableEq

instance : Inhabited PerformanceCounterStatistics := ⟨⟨[]⟩⟩

/-- `TimedBlock` (its `Instant` timer is external input and not stored). -/
structure TimedBlock where
  manual_drop : Bool
  thread_id : Nat
  name : String
  file_name : String
  line : Nat
deriving Repr, DecidableEq

/-- `ProfileState` (the `frame_timer : Instant` field is external input and
not stored; `frame_elapsed` keeps its measured value). -/
structure ProfileState where
  snapshot_interval : Nat
  frame_elapsed : Nat
  frame_counter : Nat
  snapshot_counter : Nat
  performance_counter_states : List PerformanceCounterState
  performance_counter_log : List PerformanceCounterStatistics
  timed_blocks : List (Nat × TimedBlock)
  last_timed_block_id : Nat
deriving Repr, DecidableEq

/-- `ProfileState::default()`. -/
def ProfileState.initial : ProfileState :=
  { snapshot_interval := 3
    frame_elapsed := 0
    frame_counter := 0
    snapshot_counter := 0
    performance_counter_states :=
      List.replicate PERFORMANCE_COUNTER_STATE_SIZE default
    performance_counter_log :=
      List.replicate PERFORMANCE_COUNTER_LOG_SIZE default
    timed_blocks := []
    last_timed_block_id := 0 }

/-- The identity test of the merge loop in `drop_timed_block`:
`c.name == timed_block.name && c.file_name == timed_block.file_name &&
c.line == timed_block.line`. -/
def recordMatches (tb : TimedBlock) (c : ClocsDebugRecord) : Bool :=
  c.name == tb.name && c.file_name == tb.file_name && c.line == tb.line

/-- The scanning loop of `drop_timed_block`: walks records in order carrying
`(hits, elapsed, to_modify, modify_idx)`; on every matching record it adds the
record's hits and elapsed to the accumulators, sets `to_modify` and remembers
the index. -/
def mergeScan (tb : TimedBlock) :
    List ClocsDebugRecord → Nat → Nat × Nat × Bool × Nat → Nat × Nat × Bool × Nat
  | [], _, acc => acc
  | c :: rest, i, (hits, elapsed, to_modify, modify_idx) =>
      if recordMatches tb c then
        mergeScan tb rest (i + 1) (hits + c.hits, elapsed + c.elapsed, true, i)
      else
        mergeScan tb rest (i + 1) (hits, elapsed, to_modify, modify_idx)

/-- `drop_timed_block`: merges one close of `tb`, measured as `elapsed`
nanoseconds by the current thread `cur_thread`, into the frame sample slot at
`frame_counter`. The stored `thread_id` is `thread::current().id()`, i.e. the
closing thread. -/
def drop_timed_block (tb : TimedBlock) (elapsed cur_thread : Nat)
    (st : ProfileState) : ProfileState :=
  let records := (st.performance_counter_states.getD st.frame_counter default).records
  let scan := mergeScan tb records 0 (1, elapsed, false, 0)
  let newRec : ClocsDebugRecord :=
    { name := tb.name, file_name := tb.file_name, line := tb.line
      elapsed := scan.2.1, hits := scan.1, thread_id := cur_thread }
  let newRecords :=
    if scan.2.2.1 then records.set scan.2.2.2 newRec else records ++ [newRec]
  { st with
      performance_counter_states :=
        st.performance_counter_states.set st.frame_counter ⟨newRecords⟩ }

/-- Association-list lookup standing for `HashMap::get`. -/
def alistGet {α : Type} (m : List (Nat × α)) (id : Nat) : Option α :=
  match m with
  | [] => none
  | (k, v) :: rest => if k = id then some v else alistGet rest id

/-- `HashMap::insert` (keys in the profiler are fresh, but replacement
semantics are kept). -/
def alistInsert {α : Type} (m : List (Nat × α)) (id : Nat) (v : α) :
    List (Nat × α) :=
  match m with
  | [] => [(id, v)]
  | (k, w) :: rest =>
      if k = id then (k, v) :: rest else (k, w) :: alistInsert rest id v

/-- `HashMap::remove` (keys are unique, so dropping every pair with the key
agrees with the hash map). -/
def alistRemove {α : Type} (m : List (Nat × α)) (id : Nat) : List (Nat × α) :=
  match m with
  | [] => []
  | (k, v) :: rest =>
      if k = id then alistRemove rest id else (k, v) :: alistRemove rest id

/-- `push_timed_block`: allocates the next id, registers a manual timed
block, and returns the id together with the new state. -/
def push_timed_block (name file_name : String) (line cur_thread : Nat)
    (st : ProfileState) : Nat × ProfileState :=
  let block : TimedBlock :=
    { name := name, file_name := file_name, line := line
      manual_drop := true, thread_id := cur_thread }
  let id := st.last_timed_block_id
  (id,
    { st with
        last_timed_block_id := id + 1
        timed_blocks := alistInsert st.timed_blocks id block })

/-- `drop_timed_block_by_id`: the returned `Bool` is `true` exactly when the
id is unknown and the `log::warn!` branch runs (the call is then a no-op). -/
def drop_timed_block_by_id (id elapsed cur_thread : Nat) (st : ProfileState) :
    ProfileState × Bool :=
  match alistGet st.timed_blocks id with
  | none => (st, true)
  | some block =>
      let st := drop_timed_block block elapsed cur_thread st
      ({ st with timed_blocks := alistRemove st.timed_blocks id }, false)

/-- The `HashMap` key built in `take_snapshot`:
`String::from(record.name) + record.file_name + &record.line.to_string()`. -/
def statKey (name file_name : String) (line : Nat) : String :=
  name ++ file_name ++ toString line

/-- The per-record mutation of `take_snapshot`'s accumulator
(`element.* += ...`); `percent` is untouched here. Note `elapsed / hits` is
`u128` integer division in the source, which panics when `hits = 0`; every
record written by `drop_timed_block` has `hits ≥ 1` (proved below), on which
range `Nat` division agrees. -/
def updStat (rec : ClocsDebugRecord) (r : PerformanceCounterStatisticsRecord) :
    PerformanceCounterStatisticsRecord :=
  { r with
      name := rec.name, file_name := rec.file_name, line := rec.line
      sum_elapsed := r.sum_elapsed + rec.elapsed
      sum_hits := r.sum_hits + rec.hits
      sum_hits_over_elapsed := r.sum_hits_over_elapsed + rec.elapsed / rec.hits
      hits := r.hits + 1
      thread_id := rec.thread_id }

/-- `statistics.entry(key).or_default()` followed by the mutation: modify the
entry for the record's key in place, or append a freshly defaulted one. -/
def statInsert (m : List (String × PerformanceCounterStatisticsRecord))
    (rec : ClocsDebugRecord) :
    List (String × PerformanceCounterStatisticsRecord) :=
  match m with
  | [] => [(statKey rec.name rec.file_name rec.line, updStat rec default)]
  | (k, r) :: rest =>
      if k = statKey rec.name rec.file_name rec.line then
        (k, updStat rec r) :: rest
      else
        (k, r) :: statInsert rest rec

/-- All raw records of the slot array, in slot order then record order:
`take_snapshot` iterates over the entire `performance_counter_states` array. -/
def allRecords (slots : List PerformanceCounterState) : List ClocsDebugRecord :=
  (slots.map PerformanceCounterState.records).flatten

/-- The double loop of `take_snapshot` building the statistics map. -/
def buildStats (slots : List PerformanceCounterState) :
    List (String × PerformanceCounterStatisticsRecord) :=
  (allRecords slots).foldl statInsert []

/-- `total_elapsed`: the sum of `sum_elapsed` over the map's values. -/
def totalElapsed (m : List (String × PerformanceCounterStatisticsRecord)) : Nat :=
  (m.map (fun p => p.2.sum_elapsed)).sum

/-- The percent computation
`(sum_elapsed as f64 / total_elapsed as f64) as f32 * 100.0`: finite (exact
rational) when `total ≠ 0`; when `total = 0` the `f64` division yields a
non-finite value (`NaN` for `0/0`), modelled as `none`. -/
def computePercent (total se : Nat) : Option ℚ :=
  if total = 0 then none else some ((se : ℚ) / (total : ℚ) * 100)

/-- The sort key: the percent of a record, finite percents compared as
rationals (`getD` is only ever applied to finite percents on the path where
the source's comparator does not panic). -/
def percentQ (r : PerformanceCounterStatisticsRecord) : ℚ :=
  r.percent.getD 0

/-- Descending comparator standing for
`|a, b| b.percent.partial_cmp(&a.percent).unwrap()` on finite percents. -/
def percentDesc (a b : PerformanceCounterStatisticsRecord) : Bool :=
  percentQ b ≤ percentQ a

/-- The snapshot-counter advance of `take_snapshot`:
`+= 1`, then wrap to `0` at `PERFORMANCE_COUNTER_LOG_SIZE`. -/
def nextSc (sc : Nat) : Nat :=
  if PERFORMANCE_COUNTER_LOG_SIZE ≤ sc + 1 then 0 else sc + 1

/-- The statistics map with the `percent` of each value filled in
(the second loop of `take_snapshot`). -/
def snapshotStats (slots : List PerformanceCounterState) :
    List (String × PerformanceCounterStatisticsRecord) :=
  let stats0 := buildStats slots
  let total := totalElapsed stats0
  stats0.map
    (fun p => (p.1, { p.2 with percent := computePercent total p.2.sum_elapsed }))

/-- The record sequence of the snapshot: the map's values sorted descending
by percent. -/
def snapshotSorted (slots : List PerformanceCounterState) :
    List PerformanceCounterStatisticsRecord :=
  ((snapshotStats slots).map Prod.snd).mergeSort percentDesc

/-- `take_snapshot`. Returns `none` when the source panics: sorting two or
more records whose percents are all `NaN` (`total_elapsed = 0`) calls
`partial_cmp(...).unwrap()` on a `None`. -/
def take_snapshot (st : ProfileState) : Option ProfileState :=
  let sc := nextSc st.snapshot_counter
  let stats := snapshotStats st.performance_counter_states
  if totalElapsed (buildStats st.performance_counter_states) = 0 ∧ 2 ≤ stats.length then
    none
  else
    some { st with
        snapshot_counter := sc
        performance_counter_log :=
          st.performance_counter_log.set sc ⟨snapshotSorted st.performance_counter_states⟩ }

/-- The slot-clearing loop of `frame_end`:
`for i in 0..snapshot_interval { states[i] = default }`. -/
def clearSlots (slots : List PerformanceCounterState) (n : Nat) :
    List PerformanceCounterState :=
  (List.range n).foldl (fun s i => s.set i default) slots

/-- `frame_end`, with the frame timer's measured duration passed in.
Propagates `take_snapshot`'s panic as `none`. -/
def frame_end (frame_elapsed : Nat) (st : ProfileState) : Option ProfileState :=
  let st := { st with
      frame_counter := st.frame_counter + 1
      frame_elapsed := frame_elapsed }
  if st.snapshot_interval ≤ st.frame_counter then
    match take_snapshot st with
    | none => none
    | some st2 =>
        some { st2 with
            frame_counter := 0
            performance_counter_states :=
              clearSlots st2.performance_counter_states st2.snapshot_interval }
  else
    some st

/-- `update_snapshot_interval`. -/
def update_snapshot_interval (st : ProfileState) (new_interval : Nat) :
    ProfileState :=
  if new_interval ≤ PERFORMANCE_COUNTER_STATE_SIZE then
    { st with snapshot_interval := new_interval }
  else
    st

/-- One public operation on the profile state (each acquires the global lock
in the source, so an execution is a sequence of operations). Externally
measured durations and thread identities are the operations' inputs. -/
inductive ProfOp where
  | frameEnd (frame_elapsed : Nat)
  | dropBlock (tb : TimedBlock) (elapsed cur_thread : Nat)
  | pushBlock (name file_name : String) (line cur_thread : Nat)
  | dropBlockById (id elapsed cur_thread : Nat)
  | updateInterval (n : Nat)
deriving Repr

/-- Apply one operation; `none` propagates a panic. -/
def applyOp (st : ProfileState) : ProfOp → Option ProfileState
  | .frameEnd e => frame_end e st
  | .dropBlock tb e th => some (drop_timed_block tb e th st)
  | .pushBlock n f l th => some (push_timed_block n f l th st).2
  | .dropBlockById id e th => some (drop_timed_block_by_id id e th st).1
  | .updateInterval n => some (update_snapshot_interval st n)

/-- Run a sequence of operations from a state. -/
def runOps (st : ProfileState) (ops : List ProfOp) : Option ProfileState :=
  ops.foldlM applyOp st

/-- A state is reachable when some operation sequence produces it from the
initial (`Default`) state. -/
def Reachable (st : ProfileState) : Prop :=
  ∃ ops : List ProfOp, runOps ProfileState.initial ops = some st

/-- Iterated `frame_end` calls with the given measured frame durations. -/
def frameEnds (es : List Nat) (st : ProfileState) : Option ProfileState :=
  es.foldlM (fun s e => frame_end e s) st

/-- Iterated closes of the same timed block, with each close's measured
duration and closing thread. -/
def closeMany (tb : TimedBlock) (l : List (Nat × Nat)) (st : ProfileState) :
    ProfileState :=
  l.foldl (fun s p => drop_timed_block tb p.1 p.2 s) st

/-- The records of the current frame sample slot. -/
def slotRecords (st : ProfileState) : List ClocsDebugRecord :=
  (st.performance_counter_states.getD st.frame_counter default).records

/-- The records of the most recently written statistics-log entry. -/
def snapshotRecords (st : ProfileState) : List PerformanceCounterStatisticsRecord :=
  (st.performance_counter_log.getD st.snapshot_counter default).records

/-- Association-list lookup by string key, standing for
`HashMap<String, _>::get` on the statistics map. -/
def statLookup (k : String)
    (m : List (String × PerformanceCounterStatisticsRecord)) :
    Option PerformanceCounterStatisticsRecord :=
  match m with
  | [] => none
  | (k2, r) :: rest => if k2 = k then some r else statLookup k rest

/-- Every raw record held in a frame sample slot has a positive hit count. -/
def hitsPositive (st : ProfileState) : Prop :=
  ∀ s ∈ st.performance_counter_states, ∀ r ∈ s.records, 1 ≤ r.hits

/-- The state invariant preserved by every public operation: the two rings
keep their capacities, `frame_counter` stays a valid slot index,
`snapshot_interval` stays bounded by the slot-array capacity, and every
stored raw record has a positive hit count. -/
def StateInv (st : ProfileState) : Prop :=
  st.performance_counter_states.length = PERFORMANCE_COUNTER_STATE_SIZE ∧
  st.performance_counter_log.length = PERFORMANCE_COUNTER_LOG_SIZE ∧
  st.frame_counter < PERFORMANCE_COUNTER_STATE_SIZE ∧
  st.snapshot_interval ≤ PERFORMANCE_COUNTER_STATE_SIZE ∧
  hitsPositive st

/-! ### Generic list helpers -/

theorem getD_set_same {α : Type} (l : List α) (n : Nat) (x d : α)
    (h : n < l.length) : (l.set n x).getD n d = x := by
  simp [List.getD_eq_getElem?_getD, List.getElem?_set_self h]

theorem getD_set_other {α : Type} (l : List α) (m n : Nat) (x d : α)
    (h : m ≠ n) : (l.set m x).getD n d = l.getD n d := by
  simp [List.getD_eq_getElem?_getD, List.getElem?_set_ne h]

theorem getD_mem {α : Type} (l : List α) (n : Nat) (d : α)
    (h : n < l.length) : l.getD n d ∈ l := by
  rw [List.getD_eq_getElem?_getD, List.getElem?_eq_getElem h]
  exact List.getElem_mem h

/-! ### Merge-scan lemmas (the loop of `drop_timed_block`) -/

theorem mergeScan_append (tb : TimedBlock) (A B : List ClocsDebugRecord) :
    ∀ (i : Nat) (acc : Nat × Nat × Bool × Nat),
      mergeScan tb (A ++ B) i acc =
        mergeScan tb B (i + A.length) (mergeScan tb A i acc) := by
  induction A with
  | nil => intro i acc; simp [mergeScan]
  | cons c rest ih =>
      intro i acc
      obtain ⟨h, e, m, idx⟩ := acc
      have harith : i + (rest.length + 1) = i + 1 + rest.length := by omega
      by_cases hm : recordMatches tb c
      · simp only [List.cons_append, mergeScan, hm, if_pos, List.length_cons, harith]
        exact ih (i + 1) _
      · simp only [List.cons_append, mergeScan, hm, List.length_cons, harith]
        simp only [Bool.false_eq_true, if_neg, ite_false]
        exact ih (i + 1) _

theorem mergeScan_nomatch (tb : TimedBlock) (A : List ClocsDebugRecord)
    (hA : ∀ r ∈ A, recordMatches tb r = false) :
    ∀ (i : Nat) (acc : Nat × Nat × Bool × Nat), mergeScan tb A i acc = acc := by
  induction A with
  | nil => intro i acc; rfl
  | cons c rest ih =>
      intro i acc
      obtain ⟨h, e, m, idx⟩ := acc
      have hc : recordMatches tb c = false := hA c (List.mem_cons_self c rest)
      simp only [mergeScan, hc]
      exact ih (fun r hr => hA r (List.mem_cons_of_mem c hr)) _ _

theorem mergeScan_fst_ge (tb : TimedBlock) (A : List ClocsDebugRecord) :
    ∀ (i : Nat) (h e : Nat) (m : Bool) (idx : Nat),
      h ≤ (mergeScan tb A i (h, e, m, idx)).1 := by
  induction A with
  | nil => intro i h e m idx; exact Nat.le_refl h
  | cons c rest ih =>
      intro i h e m idx
      by_cases hm : recordMatches tb c
      · simp only [mergeScan, hm, if_pos]
        exact Nat.le_trans (Nat.le_add_right h c.hits) (ih _ _ _ _ _)
      · simp only [mergeScan, hm]
        simp only [Bool.false_eq_true, if_neg, ite_false]
        exact ih _ _ _ _ _

theorem recordMatches_self (tb : TimedBlock) (e h th : Nat) :
    recordMatches tb
      { name := tb.name, file_name := tb.file_name, line := tb.line,
        elapsed := e, hits := h, thread_id := th } = true := by
  simp [recordMatches]

theorem set_append_len {α : Type} (A : List α) (x r : α) (B : List α) :
    (A ++ r :: B).set A.length x = A ++ x :: B := by
  induction A with
  | nil => rfl
  | cons a rest ih => simp [List.set, ih]

/-- One `drop_timed_block` on a slot whose only matching record sits at the
end: the matching record is updated in place (hits and elapsed accumulate,
thread identity is overwritten by the closing thread). -/
theorem drop_timed_block_step (tb : TimedBlock) (e th : Nat) (st : ProfileState)
    (A : List ClocsDebugRecord) (h d thr : Nat)
    (hfc : st.frame_counter < st.performance_counter_states.length)
    (hs : slotRecords st =
      A ++ [{ name := tb.name, file_name := tb.file_name, line := tb.line,
              elapsed := d, hits := h, thread_id := thr }])
    (hA : ∀ r ∈ A, recordMatches tb r = false) :
    slotRecords (drop_timed_block tb e th st) =
      A ++ [{ name := tb.name, file_name := tb.file_name, line := tb.line,
              elapsed := e + d, hits := 1 + h, thread_id := th }] ∧
    (drop_timed_block tb e th st).frame_counter = st.frame_counter ∧
    (drop_timed_block tb e th st).performance_counter_states.length =
      st.performance_counter_states.length := by
  have hs2 : (st.performance_counter_states.getD st.frame_counter default).records =
      A ++ [{ name := tb.name, file_name := tb.file_name, line := tb.line,
              elapsed := d, hits := h, thread_id := thr }] := hs
  have hscan :
      mergeScan tb (st.performance_counter_states.getD st.frame_counter default).records
        0 (1, e, false, 0) = (1 + h, e + d, true, A.length) := by
    rw [hs2, mergeScan_append, mergeScan_nomatch tb A hA]
    simp [mergeScan, recordMatches_self]
  refine ⟨?_, rfl, by simp [drop_timed_block]⟩
  simp only [slotRecords, drop_timed_block, hscan]
  rw [getD_set_same _ _ _ _ hfc]
  rw [hs2]
  exact set_append_len A _ _ []

/-- One `drop_timed_block` on a slot with no matching record: a fresh record
with hit count 1 is appended at the end. -/
theorem drop_timed_block_fresh (tb : TimedBlock) (e th : Nat) (st : ProfileState)
    (hfc : st.frame_counter < st.performance_counter_states.length)
    (hno : ∀ r ∈ slotRecords st, recordMatches tb r = false) :
    slotRecords (drop_timed_block tb e th st) =
      slotRecords st ++
        [{ name := tb.name, file_name := tb.file_name, line := tb.line,
           elapsed := e, hits := 1, thread_id := th }] ∧
    (drop_timed_block tb e th st).frame_counter = st.frame_counter ∧
    (drop_timed_block tb e th st).performance_counter_states.length =
      st.performance_counter_states.length := by
  have hscan :
      mergeScan tb (st.performance_counter_states.getD st.frame_counter default).records
        0 (1, e, false, 0) = (1, e, false, 0) :=
    mergeScan_nomatch tb _ hno 0 _
  refine ⟨?_, rfl, by simp [drop_timed_block]⟩
  simp only [slotRecords, drop_timed_block, hscan]
  rw [getD_set_same _ _ _ _ hfc]
  simp

/-- Iterating closes over a slot whose unique matching record sits at the end
accumulates the closes' durations and hit counts into that record. -/
theorem closeMany_inv (tb : TimedBlock) (l : List (Nat × Nat)) :
    ∀ (st : ProfileState) (A : List ClocsDebugRecord) (h d thr : Nat),
      st.frame_counter < st.performance_counter_states.length →
      slotRecords st =
        A ++ [{ name := tb.name, file_name := tb.file_name, line := tb.line,
                elapsed := d, hits := h, thread_id := thr }] →
      (∀ r ∈ A, recordMatches tb r = false) →
      slotRecords (closeMany tb l st) =
        A ++ [{ name := tb.name, file_name := tb.file_name, line := tb.line,
                elapsed := d + (l.map Prod.fst).sum, hits := h + l.length,
                thread_id := (l.map Prod.snd).getLastD thr }] ∧
      (closeMany tb l st).frame_counter = st.frame_counter := by
  induction l with
  | nil =>
      intro st A h d thr hfc hs hA
      simp [closeMany, hs]
  | cons p rest ih =>
      intro st A h d thr hfc hs hA
      obtain ⟨e, cth⟩ := p
      obtain ⟨hs1, hfc1, hlen1⟩ := drop_timed_block_step tb e cth st A h d thr hfc hs hA
      have hfc2 : (drop_timed_block tb e cth st).frame_counter <
          (drop_timed_block tb e cth st).performance_counter_states.length := by
        rw [hfc1, hlen1]; exact hfc
      obtain ⟨hres, hfcres⟩ :=
        ih (drop_timed_block tb e cth st) A (1 + h) (e + d) cth hfc2 hs1 hA
      have hcm : closeMany tb ((e, cth) :: rest) st =
          closeMany tb rest (drop_timed_block tb e cth st) := rfl
      refine ⟨?_, by rw [hcm, hfcres, hfc1]⟩
      rw [hcm, hres]
      have harg1 : e + d + (rest.map Prod.fst).sum =
          d + (((e, cth) :: rest).map Prod.fst).sum := by
        simp; omega
      have harg2 : 1 + h + rest.length = h + ((e, cth) :: rest).length := by
        simp; omega
      have harg3 : (rest.map Prod.snd).getLastD cth =
          ((((e, cth) :: rest)).map Prod.snd).getLastD thr := by
        rw [List.map_cons, List.getLastD_cons]
      rw [harg1, harg2, harg3]

/-- Claim C3: for a sequence of `n ≥ 1` closes of timed blocks with the same
region identity within one frame, starting from a slot holding no record of
that identity, the slot afterwards holds the original records plus exactly
one record of that identity, whose hit count is `n` and whose elapsed
duration is the sum of the closes' measured durations; in particular the
first close appended a fresh record with hit count 1. -/
theorem drop_timed_block_accumulates (tb : TimedBlock) (l : List (Nat × Nat))
    (st : ProfileState)
    (hfc : st.frame_counter < st.performance_counter_states.length)
    (hno : ∀ r ∈ slotRecords st, recordMatches tb r = false)
    (hne : l ≠ []) :
    slotRecords (closeMany tb l st) =
      slotRecords st ++
        [{ name := tb.name, file_name := tb.file_name, line := tb.line,
           elapsed := (l.map Prod.fst).sum, hits := l.length,
           thread_id := (l.map Prod.snd).getLastD 0 }] ∧
    (slotRecords (closeMany tb l st)).filter (recordMatches tb) =
      [{ name := tb.name, file_name := tb.file_name, line := tb.line,
         elapsed := (l.map Prod.fst).sum, hits := l.length,
         thread_id := (l.map Prod.snd).getLastD 0 }] := by
  match l, hne with
  | (e, cth) :: rest, _ =>
    obtain ⟨hs1, hfc1, hlen1⟩ := drop_timed_block_fresh tb e cth st hfc hno
    have hfc2 : (drop_timed_block tb e cth st).frame_counter <
        (drop_timed_block tb e cth st).performance_counter_states.length := by
      rw [hfc1, hlen1]; exact hfc
    obtain ⟨hres, _⟩ :=
      closeMany_inv tb rest (drop_timed_block tb e cth st) (slotRecords st)
        1 e cth hfc2 hs1 hno
    have hcm : closeMany tb ((e, cth) :: rest) st =
        closeMany tb rest (drop_timed_block tb e cth st) := rfl
    have hmain : slotRecords (closeMany tb ((e, cth) :: rest) st) =
        slotRecords st ++
          [{ name := tb.name, file_name := tb.file_name, line := tb.line,
             elapsed := (((e, cth) :: rest).map Prod.fst).sum,
             hits := ((e, cth) :: rest).length,
             thread_id := (((e, cth) :: rest).map Prod.snd).getLastD 0 }] := by
      rw [hcm, hres]
      have harg2 : 1 + rest.length = ((e, cth) :: rest).length := by simp; omega
      have harg3 : (rest.map Prod.snd).getLastD cth =
          ((((e, cth) :: rest)).map Prod.snd).getLastD 0 := by
        rw [List.map_cons, List.getLastD_cons]
      rw [harg2, harg3]
      simp
    refine ⟨hmain, ?_⟩
    rw [hmain, List.filter_append]
    have hnil : (slotRecords st).filter (recordMatches tb) = [] :=
      List.filter_eq_nil_iff.mpr (fun r hr => by simp [hno r hr])
    rw [hnil]
    simp [recordMatches_self]

/-- Witness for C3 at a concrete input: two closes of identity
`("w", "g", 2)` measuring 5 ns and 7 ns on the initial state. -/
theorem drop_timed_block_accumulates_witness :
    slotRecords (closeMany
        { manual_drop := false, thread_id := 5, name := "w", file_name := "g", line := 2 }
        [(5, 1), (7, 2)] ProfileState.initial) =
      slotRecords ProfileState.initial ++
        [{ name := "w", file_name := "g", line := 2,
           elapsed := ([(5, 1), (7, 2)].map Prod.fst).sum,
           hits := [(5, 1), (7, 2)].length,
           thread_id := ([(5, 1), (7, 2)].map Prod.snd).getLastD 0 }] ∧
    (slotRecords (closeMany
        { manual_drop := false, thread_id := 5, name := "w", file_name := "g", line := 2 }
        [(5, 1), (7, 2)] ProfileState.initial)).filter
      (recordMatches
        { manual_drop := false, thread_id := 5, name := "w", file_name := "g", line := 2 }) =
      [{ name := "w", file_name := "g", line := 2,
         elapsed := ([(5, 1), (7, 2)].map Prod.fst).sum,
         hits := [(5, 1), (7, 2)].length,
         thread_id := ([(5, 1), (7, 2)].map Prod.snd).getLastD 0 }] :=
  drop_timed_block_accumulates
    { manual_drop := false, thread_id := 5, name := "w", file_name := "g", line := 2 }
    [(5, 1), (7, 2)] ProfileState.initial (by decide) (by decide) (by decide)

/-- Claim C6: closing a manual timed block whose id is not in the table does
not panic: the call returns the state unchanged (a no-op on the manual-block
table and every other field) and raises the warning flag. -/
theorem close_manual_unknown_id (id e th : Nat) (st : ProfileState)
    (h : alistGet st.timed_blocks id = none) :
    drop_timed_block_by_id id e th st = (st, true) := by
  simp [drop_timed_block_by_id, h]

/-- Witness for C6: closing the never-issued id 999999 on the initial state
warns and changes nothing. -/
theorem close_manual_unknown_id_witness :
    drop_timed_block_by_id 999999 5 1 ProfileState.initial =
      (ProfileState.initial, true) :=
  close_manual_unknown_id 999999 5 1 ProfileState.initial (by decide)

/-- Claim C7: `update_snapshot_interval` sets the interval to the requested
value exactly when it does not exceed the slot-array capacity; a larger value
leaves the whole state (interval included) unchanged, with no error. -/
theorem update_snapshot_interval_spec (st : ProfileState) (n : Nat) :
    (n ≤ PERFORMANCE_COUNTER_STATE_SIZE →
      update_snapshot_interval st n = { st with snapshot_interval := n }) ∧
    (PERFORMANCE_COUNTER_STATE_SIZE < n →
      update_snapshot_interval st n = st) := by
  constructor
  · intro h
    simp [update_snapshot_interval, h]
  · intro h
    simp [update_snapshot_interval, Nat.not_le.mpr h]

/-- Witness for C7: interval 7 is accepted, interval 61 is silently ignored
on the initial state. -/
theorem update_snapshot_interval_spec_witness :
    update_snapshot_interval ProfileState.initial 7 =
      { ProfileState.initial with snapshot_interval := 7 } ∧
    update_snapshot_interval ProfileState.initial 61 = ProfileState.initial :=
  ⟨(update_snapshot_interval_spec ProfileState.initial 7).1 (by decide),
   (update_snapshot_interval_spec ProfileState.initial 61).2 (by decide)⟩

theorem alistGet_remove {α : Type} (m : List (Nat × α)) (id : Nat) :
    alistGet (alistRemove m id) id = none := by
  induction m with
  | nil => rfl
  | cons p rest ih =>
      obtain ⟨k, v⟩ := p
      by_cases h : k = id
      · simpa [alistRemove, h] using ih
      · simp [alistRemove, alistGet, h, ih]

/-- Claim C10: a successful `drop_timed_block_by_id` merges the block's
timing exactly once and removes the id from the manual-block table before
returning, so a second close of the same id takes the unknown-id branch:
it warns and changes nothing. -/
theorem close_manual_removes_id (id e1 th1 e2 th2 : Nat) (st : ProfileState)
    (block : TimedBlock) (h : alistGet st.timed_blocks id = some block) :
    (drop_timed_block_by_id id e1 th1 st).2 = false ∧
    (drop_timed_block_by_id id e1 th1 st).1 =
      { drop_timed_block block e1 th1 st with
          timed_blocks := alistRemove st.timed_blocks id } ∧
    alistGet (drop_timed_block_by_id id e1 th1 st).1.timed_blocks id = none ∧
    drop_timed_block_by_id id e2 th2 (drop_timed_block_by_id id e1 th1 st).1 =
      ((drop_timed_block_by_id id e1 th1 st).1, true) := by
  have hst1 : drop_timed_block_by_id id e1 th1 st =
      ({ drop_timed_block block e1 th1 st with
          timed_blocks := alistRemove st.timed_blocks id }, false) := by
    simp [drop_timed_block_by_id, h]
    rfl
  refine ⟨by rw [hst1], by rw [hst1], ?_, ?_⟩
  · rw [hst1]
    exact alistGet_remove st.timed_blocks id
  · rw [hst1]
    have h2 : alistGet (alistRemove st.timed_blocks id) id = none :=
      alistGet_remove st.timed_blocks id
    simp [drop_timed_block_by_id, h2]

/-- Witness for C10: push one manual block on the initial state (it gets
id 0), close it twice. -/
theorem close_manual_removes_id_witness :
    (drop_timed_block_by_id 0 4 1
        (push_timed_block "a" "f" 1 0 ProfileState.initial).2).2 = false ∧
    (drop_timed_block_by_id 0 4 1
        (push_timed_block "a" "f" 1 0 ProfileState.initial).2).1 =
      { drop_timed_block
          { manual_drop := true, thread_id := 0, name := "a", file_name := "f", line := 1 }
          4 1 (push_timed_block "a" "f" 1 0 ProfileState.initial).2 with
          timed_blocks :=
            alistRemove (push_timed_block "a" "f" 1 0 ProfileState.initial).2.timed_blocks 0 } ∧
    alistGet (drop_timed_block_by_id 0 4 1
        (push_timed_block "a" "f" 1 0 ProfileState.initial).2).1.timed_blocks 0 = none ∧
    drop_timed_block_by_id 0 9 2
        (drop_timed_block_by_id 0 4 1
          (push_timed_block "a" "f" 1 0 ProfileState.initial).2).1 =
      ((drop_timed_block_by_id 0 4 1
          (push_timed_block "a" "f" 1 0 ProfileState.initial).2).1, true) :=
  close_manual_removes_id 0 4 1 9 2
    (push_timed_block "a" "f" 1 0 ProfileState.initial).2
    { manual_drop := true, thread_id := 0, name := "a", file_name := "f", line := 1 }
    (by decide)

/-- Counterexample for C2 as stated: `update_snapshot_interval 0` is accepted
(`0 ≤ 60`), so the reachable state after that single operation has
`frame_counter = 0` and `snapshot_interval = 0`, violating
`frame_counter < snapshot_interval`. -/
theorem frame_counter_invariant_cex :
    runOps ProfileState.initial [ProfOp.updateInterval 0] =
      some (update_snapshot_interval ProfileState.initial 0) ∧
    ¬ ((update_snapshot_interval ProfileState.initial 0).frame_counter <
        (update_snapshot_interval ProfileState.initial 0).snapshot_interval) :=
  ⟨rfl, by decide⟩

/-! ### The reachable-state invariant -/

theorem clearSlots_succ (slots : List PerformanceCounterState) (n : Nat) :
    clearSlots slots (n + 1) = (clearSlots slots n).set n default := by
  simp [clearSlots, List.range_succ]

theorem clearSlots_length (slots : List PerformanceCounterState) (n : Nat) :
    (clearSlots slots n).length = slots.length := by
  induction n with
  | zero => rfl
  | succ k ih => rw [clearSlots_succ, List.length_set, ih]

theorem clearSlots_mem (slots : List PerformanceCounterState) (n : Nat) :
    ∀ s ∈ clearSlots slots n, s ∈ slots ∨ s = default := by
  induction n with
  | zero => exact fun s hs => Or.inl hs
  | succ k ih =>
      intro s hs
      rw [clearSlots_succ] at hs
      rcases List.mem_or_eq_of_mem_set hs with h | h
      · exact ih s h
      · exact Or.inr h

theorem take_snapshot_states (st st2 : ProfileState)
    (h : take_snapshot st = some st2) :
    st2.performance_counter_states = st.performance_counter_states ∧
    st2.frame_counter = st.frame_counter ∧
    st2.snapshot_interval = st.snapshot_interval ∧
    st2.performance_counter_log.length = st.performance_counter_log.length ∧
    st2.timed_blocks = st.timed_blocks := by
  unfold take_snapshot at h
  by_cases hc : totalElapsed (buildStats st.performance_counter_states) = 0 ∧
      2 ≤ (snapshotStats st.performance_counter_states).length
  · simp [hc] at h
  · simp only [hc, if_neg, ite_false] at h
    obtain rfl := Option.some.inj h
    exact ⟨rfl, rfl, rfl, by simp, rfl⟩

theorem hitsPositive_drop (tb : TimedBlock) (e th : Nat) (st : ProfileState)
    (h : hitsPositive st) : hitsPositive (drop_timed_block tb e th st) := by
  have hbase : ∀ r2 ∈ (st.performance_counter_states.getD st.frame_counter
      default).records, 1 ≤ r2.hits := by
    intro r2 hr2
    by_cases hfc : st.frame_counter < st.performance_counter_states.length
    · exact h _ (getD_mem _ _ _ hfc) r2 hr2
    · have hdef : st.performance_counter_states.getD st.frame_counter default =
          default := by
        rw [List.getD_eq_getElem?_getD,
          List.getElem?_eq_none (Nat.le_of_not_lt hfc)]
        rfl
      rw [hdef] at hr2
      exact absurd hr2 (List.not_mem_nil r2)
  intro s hs r hr
  simp only [drop_timed_block] at hs
  rcases List.mem_or_eq_of_mem_set hs with hmem | heq
  · exact h s hmem r hr
  · subst heq
    simp only at hr
    have hfresh : 1 ≤ (mergeScan tb
        (st.performance_counter_states.getD st.frame_counter default).records
        0 (1, e, false, 0)).1 :=
      mergeScan_fst_ge tb _ 0 1 e false 0
    by_cases hm : (mergeScan tb
        (st.performance_counter_states.getD st.frame_counter default).records
        0 (1, e, false, 0)).2.2.1
    · simp only [hm, if_pos] at hr
      rcases List.mem_or_eq_of_mem_set hr with hmem2 | heq2
      · exact hbase r hmem2
      · subst heq2; exact hfresh
    · simp only [hm] at hr
      simp only [Bool.false_eq_true, if_neg, ite_false] at hr
      rcases List.mem_append.mp hr with hmem2 | heq2
      · exact hbase r hmem2
      · rw [List.mem_singleton.mp heq2]; exact hfresh

theorem stateInv_initial : StateInv ProfileState.initial := by
  refine ⟨rfl, rfl, by decide, by decide, ?_⟩
  intro s hs r hr
  rw [List.eq_of_mem_replicate hs] at hr
  exact absurd hr (List.not_mem_nil r)

theorem stateInv_drop (tb : TimedBlock) (e th : Nat) (st : ProfileState)
    (h : StateInv st) : StateInv (drop_timed_block tb e th st) := by
  obtain ⟨h1, h2, h3, h4, h5⟩ := h
  exact ⟨by simpa [drop_timed_block] using h1, h2, h3, h4,
    hitsPositive_drop tb e th st h5⟩

theorem stateInv_update (st : ProfileState) (n : Nat) (h : StateInv st) :
    StateInv (update_snapshot_interval st n) := by
  obtain ⟨h1, h2, h3, h4, h5⟩ := h
  by_cases hn : n ≤ PERFORMANCE_COUNTER_STATE_SIZE
  · rw [(update_snapshot_interval_spec st n).1 hn]
    exact ⟨h1, h2, h3, hn, h5⟩
  · rw [(update_snapshot_interval_spec st n).2 (Nat.lt_of_not_le hn)]
    exact ⟨h1, h2, h3, h4, h5⟩

theorem stateInv_push (name file_name : String) (line th : Nat)
    (st : ProfileState) (h : StateInv st) :
    StateInv (push_timed_block name file_name line th st).2 := by
  obtain ⟨h1, h2, h3, h4, h5⟩ := h
  exact ⟨h1, h2, h3, h4, h5⟩

theorem stateInv_dropById (id e th : Nat) (st : ProfileState)
    (h : StateInv st) : StateInv (drop_timed_block_by_id id e th st).1 := by
  unfold drop_timed_block_by_id
  cases hg : alistGet st.timed_blocks id with
  | none => exact h
  | some block =>
      obtain ⟨h1, h2, h3, h4, h5⟩ := stateInv_drop block e th st h
      exact ⟨h1, h2, h3, h4, h5⟩

theorem stateInv_frame_end (e : Nat) (st st2 : ProfileState)
    (h : StateInv st) (hfe : frame_end e st = some st2) : StateInv st2 := by
  obtain ⟨h1, h2, h3, h4, h5⟩ := h
  unfold frame_end at hfe
  by_cases hc : st.snapshot_interval ≤ st.frame_counter + 1
  · simp only [hc, if_pos] at hfe
    cases hts : take_snapshot { st with
        frame_counter := st.frame_counter + 1, frame_elapsed := e } with
    | none => rw [hts] at hfe; exact absurd hfe (by simp)
    | some st3 =>
        rw [hts] at hfe
        obtain rfl := Option.some.inj hfe
        obtain ⟨hs1, _, hs3, hs4, _⟩ := take_snapshot_states _ _ hts
        refine ⟨?_, ?_, ?_, ?_, ?_⟩
        · show (clearSlots st3.performance_counter_states
            st3.snapshot_interval).length = _
          rw [clearSlots_length, hs1]
          exact h1
        · show st3.performance_counter_log.length = _
          rw [hs4]
          exact h2
        · show (0 : Nat) < PERFORMANCE_COUNTER_STATE_SIZE
          decide
        · show st3.snapshot_interval ≤ _
          rw [hs3]
          exact h4
        · intro s hs r hr
          rcases clearSlots_mem _ _ s hs with hmem | hdef
          · rw [hs1] at hmem
            exact h5 s hmem r hr
          · rw [hdef] at hr
            exact absurd hr (List.not_mem_nil r)
  · simp only [hc, if_neg, ite_false] at hfe
    obtain rfl := Option.some.inj hfe
    refine ⟨h1, h2, ?_, h4, h5⟩
    show st.frame_counter + 1 < PERFORMANCE_COUNTER_STATE_SIZE
    have : st.frame_counter + 1 < st.snapshot_interval := Nat.lt_of_not_le hc
    omega

theorem stateInv_applyOp (st st2 : ProfileState) (op : ProfOp)
    (h : StateInv st) (hop : applyOp st op = some st2) : StateInv st2 := by
  cases op with
  | frameEnd e => exact stateInv_frame_end e st st2 h hop
  | dropBlock tb e th =>
      obtain rfl := Option.some.inj hop
      exact stateInv_drop tb e th st h
  | pushBlock n f l th =>
      obtain rfl := Option.some.inj hop
      exact stateInv_push n f l th st h
  | dropBlockById id e th =>
      obtain rfl := Option.some.inj hop
      exact stateInv_dropById id e th st h
  | updateInterval n =>
      obtain rfl := Option.some.inj hop
      exact stateInv_update st n h

theorem stateInv_runOps (ops : List ProfOp) :
    ∀ (st st2 : ProfileState), StateInv st → runOps st ops = some st2 →
      StateInv st2 := by
  induction ops with
  | nil =>
      intro st st2 h hrun
      obtain rfl := Option.some.inj hrun
      exact h
  | cons op rest ih =>
      intro st st2 h hrun
      simp only [runOps, List.foldlM_cons] at hrun
      cases hop : applyOp st op with
      | none => rw [hop] at hrun; exact absurd hrun (by simp)
      | some st1 =>
          rw [hop] at hrun
          exact ih st1 st2 (stateInv_applyOp st st1 op h hop) hrun

/-- Every reachable state satisfies the invariant. -/
theorem reachable_stateInv (st : ProfileState) (h : Reachable st) :
    StateInv st := by
  obtain ⟨ops, hops⟩ := h
  exact stateInv_runOps ops ProfileState.initial st stateInv_initial hops

/-- Claim C2 (amended): in every reachable state `frame_counter` is a valid
index into the slot array and `snapshot_interval` never exceeds the
slot-array capacity; moreover `frame_end` always leaves
`frame_counter` inside `[0, snapshot_interval)` provided
`snapshot_interval ≥ 1`. (The stronger original invariant
`frame_counter < snapshot_interval` fails on reachable states because
`update_snapshot_interval` accepts `0` and values below the current
`frame_counter`; see the counterexample.) -/
theorem frame_counter_bounds :
    (∀ st : ProfileState, Reachable st →
      st.frame_counter < PERFORMANCE_COUNTER_STATE_SIZE ∧
      st.snapshot_interval ≤ PERFORMANCE_COUNTER_STATE_SIZE) ∧
    (∀ (e : Nat) (st st2 : ProfileState), 1 ≤ st.snapshot_interval →
      frame_end e st = some st2 →
      st2.frame_counter < st2.snapshot_interval) := by
  constructor
  · intro st h
    obtain ⟨_, _, h3, h4, _⟩ := reachable_stateInv st h
    exact ⟨h3, h4⟩
  · intro e st st2 hsi hfe
    unfold frame_end at hfe
    by_cases hc : st.snapshot_interval ≤ st.frame_counter + 1
    · simp only [hc, if_pos] at hfe
      cases hts : take_snapshot { st with
          frame_counter := st.frame_counter + 1, frame_elapsed := e } with
      | none => rw [hts] at hfe; exact absurd hfe (by simp)
      | some st3 =>
          rw [hts] at hfe
          obtain rfl := Option.some.inj hfe
          obtain ⟨_, _, hs3, _, _⟩ := take_snapshot_states _ _ hts
          show (0 : Nat) < st3.snapshot_interval
          rw [hs3]
          exact hsi
    · simp only [hc, if_neg, ite_false] at hfe
      obtain rfl := Option.some.inj hfe
      show st.frame_counter + 1 < st.snapshot_interval
      exact Nat.lt_of_not_le hc

/-- Witness for the amended C2: the bounds hold at the initial state, and
one `frame_end` from the initial state lands inside `[0, 3)`. -/
theorem frame_counter_bounds_witness :
    (ProfileState.initial.frame_counter < PERFORMANCE_COUNTER_STATE_SIZE ∧
      ProfileState.initial.snapshot_interval ≤ PERFORMANCE_COUNTER_STATE_SIZE) ∧
    ((frame_end 5 ProfileState.initial).getD ProfileState.initial).frame_counter <
      ((frame_end 5 ProfileState.initial).getD ProfileState.initial).snapshot_interval :=
  ⟨frame_counter_bounds.1 ProfileState.initial ⟨[], rfl⟩,
   frame_counter_bounds.2 5 ProfileState.initial
     ((frame_end 5 ProfileState.initial).getD ProfileState.initial)
     (by decide) (by rfl)⟩

/-- Claim C9: in every reachable state, every raw record stored in any frame
sample slot has hit count at least 1 (`drop_timed_block` creates records with
hit count 1 and only increases them), so the integer division
`record.elapsed.as_nanos() / record.hits` in `take_snapshot` never has a zero
divisor. -/
theorem raw_record_hits_positive (st : ProfileState) (h : Reachable st) :
    hitsPositive st :=
  (reachable_stateInv st h).2.2.2.2

/-- Witness for C9 at a state reached by one scope-block close. -/
theorem raw_record_hits_positive_witness :
    hitsPositive (drop_timed_block
      { manual_drop := false, thread_id := 1, name := "a", file_name := "f", line := 1 }
      5 1 ProfileState.initial) :=
  raw_record_hits_positive _
    ⟨[ProfOp.dropBlock
        { manual_drop := false, thread_id := 1, name := "a", file_name := "f", line := 1 }
        5 1], rfl⟩

/-! ### Snapshot ordering and percentages -/

theorem nextSc_lt (sc : Nat) : nextSc sc < PERFORMANCE_COUNTER_LOG_SIZE := by
  unfold nextSc
  by_cases h : PERFORMANCE_COUNTER_LOG_SIZE ≤ sc + 1
  · simp only [h, if_pos]
    decide
  · simp only [h, if_neg, ite_false]
    exact Nat.lt_of_not_le h

theorem percentDesc_trans (a b c : PerformanceCounterStatisticsRecord)
    (hab : percentDesc a b) (hbc : percentDesc b c) : percentDesc a c := by
  simp only [percentDesc, decide_eq_true_eq] at hab hbc ⊢
  exact le_trans hbc hab

theorem percentDesc_total (a b : PerformanceCounterStatisticsRecord) :
    percentDesc a b || percentDesc b a := by
  simp only [percentDesc, Bool.or_eq_true, decide_eq_true_eq]
  exact le_total (percentQ b) (percentQ a)

/-- The snapshot state produced by a successful `take_snapshot`, and where
its record sequence lands in the log. -/
theorem take_snapshot_success (st st2 : ProfileState)
    (h : take_snapshot st = some st2)
    (hlen : st.performance_counter_log.length = PERFORMANCE_COUNTER_LOG_SIZE) :
    st2.snapshot_counter = nextSc st.snapshot_counter ∧
    st2.performance_counter_log =
      st.performance_counter_log.set (nextSc st.snapshot_counter)
        ⟨snapshotSorted st.performance_counter_states⟩ ∧
    snapshotRecords st2 = snapshotSorted st.performance_counter_states := by
  unfold take_snapshot at h
  by_cases hc : totalElapsed (buildStats st.performance_counter_states) = 0 ∧
      2 ≤ (snapshotStats st.performance_counter_states).length
  · simp [hc] at h
  · simp only [hc, if_neg, ite_false] at h
    obtain rfl := Option.some.inj h
    refine ⟨rfl, rfl, ?_⟩
    show ((st.performance_counter_log.set (nextSc st.snapshot_counter)
        ⟨snapshotSorted st.performance_counter_states⟩).getD
        (nextSc st.snapshot_counter) default).records = _
    rw [getD_set_same _ _ _ _ (by rw [hlen]; exact nextSc_lt st.snapshot_counter)]

/-- Claim C8: the record sequence of every snapshot actually written into the
statistics log is sorted in descending order of `percent` (finite percents
compared as exact rationals; a written snapshot with a non-finite percent has
at most one record, on which the ordering is vacuous). -/
theorem snapshot_sorted_desc (st st2 : ProfileState)
    (h : take_snapshot st = some st2)
    (hlen : st.performance_counter_log.length = PERFORMANCE_COUNTER_LOG_SIZE) :
    List.Pairwise (fun a b => percentQ b ≤ percentQ a) (snapshotRecords st2) := by
  obtain ⟨-, -, hrec⟩ := take_snapshot_success st st2 h hlen
  rw [hrec]
  have hp : (snapshotSorted st.performance_counter_states).Pairwise
      (fun a b => percentDesc a b = true) :=
    List.sorted_mergeSort
      (fun a b c => percentDesc_trans a b c) percentDesc_total _
  exact hp.imp (fun hab => by
    simpa [percentDesc, decide_eq_true_eq] using hab)

/-- Witness for C8: `take_snapshot` on the initial state (an empty snapshot,
trivially sorted). -/
theorem snapshot_sorted_desc_witness :
    List.Pairwise (fun a b => percentQ b ≤ percentQ a)
      (snapshotRecords
        ((take_snapshot ProfileState.initial).getD ProfileState.initial)) :=
  snapshot_sorted_desc ProfileState.initial
    ((take_snapshot ProfileState.initial).getD ProfileState.initial)
    (by rfl) (by rfl)

/-- In a successful snapshot with nonzero total elapsed time, the percents
are exact rationals summing to 100. -/
theorem snapshot_percent_sum (st st2 : ProfileState)
    (h : take_snapshot st = some st2)
    (hlen : st.performance_counter_log.length = PERFORMANCE_COUNTER_LOG_SIZE)
    (htot : totalElapsed (buildStats st.performance_counter_states) ≠ 0) :
    ((snapshotRecords st2).map percentQ).sum = 100 := by
  obtain ⟨-, -, hrec⟩ := take_snapshot_success st st2 h hlen
  rw [hrec]
  have hperm : List.Perm (snapshotSorted st.performance_counter_states)
      ((snapshotStats st.performance_counter_states).map Prod.snd) :=
    List.mergeSort_perm _ _
  rw [(hperm.map percentQ).sum_eq]
  simp only [snapshotStats, List.map_map]
  simp only [Function.comp_def, percentQ, computePercent, htot, if_false,
    Option.getD_some]
  simp only [div_mul_eq_mul_div, mul_div_assoc]
  rw [List.sum_map_mul_right]
  have hT : ((buildStats st.performance_counter_states).map
      (fun p => (p.2.sum_elapsed : ℚ))).sum =
      ((totalElapsed (buildStats st.performance_counter_states) : Nat) : ℚ) := by
    show _ = ((((buildStats st.performance_counter_states).map
      (fun p => p.2.sum_elapsed)).sum : Nat) : ℚ)
    rw [Nat.cast_list_sum, List.map_map]
    rfl
  rw [hT, mul_comm]
  exact div_mul_cancel₀ 100 (Nat.cast_ne_zero.mpr htot)

unseal List.merge List.mergeSort in
/-- Claim C1 (the code diverges from the spec in the degenerate case): with a
nonzero total elapsed time the percents of a snapshot sum to exactly 100 in
real arithmetic (third conjunct); but when the total elapsed time is zero the
aggregator computes `0.0 / 0.0`, so each record's percent is NaN (modelled
`none`), not 0 (first conjunct: a single zero-elapsed record yields percent
NaN), and with two or more accumulators the subsequent
`sort_by(partial_cmp().unwrap())` on NaN percents panics, so no snapshot is
produced at all (second conjunct, `none` = panic). -/
theorem percent_sum_and_degenerate :
    ((runOps ProfileState.initial
        [ProfOp.updateInterval 1,
         ProfOp.dropBlock
           { manual_drop := false, thread_id := 0, name := "a", file_name := "f", line := 1 } 0 0,
         ProfOp.frameEnd 0]).map
      (fun st => (snapshotRecords st).map (fun r => r.percent))) = some [none] ∧
    runOps ProfileState.initial
        [ProfOp.updateInterval 1,
         ProfOp.dropBlock
           { manual_drop := false, thread_id := 0, name := "a", file_name := "f", line := 1 } 0 0,
         ProfOp.dropBlock
           { manual_drop := false, thread_id := 0, name := "b", file_name := "f", line := 1 } 0 0,
         ProfOp.frameEnd 0] = none ∧
    (∀ st st2 : ProfileState, take_snapshot st = some st2 →
      st.performance_counter_log.length = PERFORMANCE_COUNTER_LOG_SIZE →
      totalElapsed (buildStats st.performance_counter_states) ≠ 0 →
      ((snapshotRecords st2).map percentQ).sum = 100) :=
  ⟨by rfl, by rfl, snapshot_percent_sum⟩

/-- Witness for the hypothesis-bearing part of the C1 theorem: one 10 ns
close, snapshot percents sum to 100. -/
theorem percent_sum_and_degenerate_witness :
    ((snapshotRecords
        ((take_snapshot (drop_timed_block
            { manual_drop := false, thread_id := 1, name := "a", file_name := "f", line := 1 }
            10 1 ProfileState.initial)).getD
          (drop_timed_block
            { manual_drop := false, thread_id := 1, name := "a", file_name := "f", line := 1 }
            10 1 ProfileState.initial))).map percentQ).sum = 100 :=
  percent_sum_and_degenerate.2.2
    (drop_timed_block
      { manual_drop := false, thread_id := 1, name := "a", file_name := "f", line := 1 }
      10 1 ProfileState.initial)
    _ (by rfl) (by rfl) (by decide)

/-! ### Frame-interval lemmas -/

theorem clearSlots_getD_lt (slots : List PerformanceCounterState) (n i : Nat)
    (hi : i < n) (hn : n ≤ slots.length) :
    (clearSlots slots n).getD i default = default := by
  induction n with
  | zero => omega
  | succ k ih =>
      rw [clearSlots_succ]
      by_cases hik : i = k
      · subst hik
        exact getD_set_same _ _ _ _ (by rw [clearSlots_length]; omega)
      · rw [getD_set_other _ _ _ _ _ (fun h2 => hik h2.symm)]
        exact ih (by omega) (by omega)

theorem list_split_last {α : Type} (l : List α) (n : Nat) (d : α)
    (h : n + 1 = l.length) : l = l.take n ++ [l.getD n d] := by
  conv_lhs => rw [← List.take_length (l := l), ← h]
  rw [List.take_succ, List.getElem?_eq_getElem (by omega)]
  simp [List.getD_eq_getElem?_getD, List.getElem?_eq_getElem
    (show n < l.length by omega)]

theorem frameEnds_append (A B : List Nat) (st : ProfileState) :
    frameEnds (A ++ B) st = frameEnds A st >>= fun s => frameEnds B s := by
  simp [frameEnds, List.foldlM_append]

theorem take_snapshot_eq_some (st : ProfileState)
    (h : ¬ (totalElapsed (buildStats st.performance_counter_states) = 0 ∧
        2 ≤ (snapshotStats st.performance_counter_states).length)) :
    take_snapshot st = some { st with
      snapshot_counter := nextSc st.snapshot_counter,
      performance_counter_log := st.performance_counter_log.set
        (nextSc st.snapshot_counter)
        ⟨snapshotSorted st.performance_counter_states⟩ } := by
  simp only [take_snapshot]
  rw [if_neg h]

theorem frame_end_cases (e : Nat) (st : ProfileState) :
    frame_end e st =
      if st.snapshot_interval ≤ st.frame_counter + 1 then
        (take_snapshot { st with
            frame_counter := st.frame_counter + 1,
            frame_elapsed := e }).map
          (fun st2 => { st2 with
              frame_counter := 0,
              performance_counter_states :=
                clearSlots st2.performance_counter_states
                  st2.snapshot_interval })
      else
        some { st with
            frame_counter := st.frame_counter + 1,
            frame_elapsed := e } := by
  by_cases hc : st.snapshot_interval ≤ st.frame_counter + 1
  · simp only [frame_end, hc, if_pos]
    cases hts : take_snapshot { st with
        frame_counter := st.frame_counter + 1,
        frame_elapsed := e } with
    | none => simp
    | some st3 => simp
  · simp only [frame_end, hc, if_neg, ite_false]

theorem frameEnds_take (st : ProfileState) (es : List Nat) (j : Nat)
    (h0 : st.frame_counter = 0) (hj : j < st.snapshot_interval)
    (hlen : j ≤ es.length) :
    frameEnds (es.take j) st =
      some { st with
          frame_counter := j,
          frame_elapsed := if j = 0 then st.frame_elapsed
            else es.getD (j - 1) 0 } := by
  induction j with
  | zero =>
      simp only [List.take_zero, frameEnds, List.foldlM_nil, if_pos]
      rw [← h0]
      rfl
  | succ k ih =>
      have hk : k < st.snapshot_interval := Nat.lt_of_succ_lt hj
      have hklen : k ≤ es.length := by omega
      have hkl : k < es.length := by omega
      have htake : es.take (k + 1) = es.take k ++ [es.getD k 0] := by
        rw [List.take_succ, List.getElem?_eq_getElem hkl]
        simp [List.getD_eq_getElem?_getD, List.getElem?_eq_getElem hkl]
      rw [htake, frameEnds_append, ih hk hklen]
      have hne : ¬ (st.snapshot_interval ≤ k + 1) := by omega
      have hstep : frameEnds [es.getD k 0]
          { st with
            frame_counter := k,
            frame_elapsed := if k = 0 then st.frame_elapsed
              else es.getD (k - 1) 0 } =
          some { st with
            frame_counter := k + 1,
            frame_elapsed := es.getD k 0 } := by
        simp only [frameEnds, List.foldlM_cons, List.foldlM_nil]
        rw [frame_end_cases]
        simp only [hne, if_neg, ite_false]
        rfl
      show frameEnds [es.getD k 0]
          { st with
            frame_counter := k,
            frame_elapsed := if k = 0 then st.frame_elapsed
              else es.getD (k - 1) 0 } = _
      rw [hstep]
      simp

/-- Claim C4 (amended): starting from `frame_counter = 0` with
`1 ≤ snapshot_interval ≤ slot-array length`, none of the first
`snapshot_interval - 1` calls to `frame_end` touches the statistics log or
the snapshot counter; the `snapshot_interval`-th call writes exactly one
entry (a single `set` at the advanced snapshot counter), resets
`frame_counter` to 0 and empties every frame sample slot with index below
`snapshot_interval` — provided the aggregation is not degenerate (nonzero
total elapsed time, or at most one accumulator). In the degenerate case with
two or more accumulators the call panics in the sort instead and nothing is
written (see the counterexample). -/
theorem frame_end_interval (st : ProfileState) (es : List Nat)
    (h0 : st.frame_counter = 0)
    (hk : es.length = st.snapshot_interval)
    (h1 : 1 ≤ st.snapshot_interval)
    (hcap : st.snapshot_interval ≤ st.performance_counter_states.length)
    (hok : totalElapsed (buildStats st.performance_counter_states) ≠ 0 ∨
      (buildStats st.performance_counter_states).length ≤ 1) :
    (∀ j, j < st.snapshot_interval →
      frameEnds (es.take j) st =
        some { st with
            frame_counter := j,
            frame_elapsed := if j = 0 then st.frame_elapsed
              else es.getD (j - 1) 0 }) ∧
    frameEnds es st =
      some { st with
          frame_counter := 0,
          frame_elapsed := es.getD (st.snapshot_interval - 1) 0,
          snapshot_counter := nextSc st.snapshot_counter,
          performance_counter_log :=
            st.performance_counter_log.set (nextSc st.snapshot_counter)
              ⟨snapshotSorted st.performance_counter_states⟩,
          performance_counter_states :=
            clearSlots st.performance_counter_states st.snapshot_interval } ∧
    (∀ i, i < st.snapshot_interval →
      ((clearSlots st.performance_counter_states st.snapshot_interval).getD i
        default).records = []) := by
  have hcond2 : ¬ (totalElapsed (buildStats st.performance_counter_states) = 0 ∧
      2 ≤ (snapshotStats st.performance_counter_states).length) := by
    have hlenstats : (snapshotStats st.performance_counter_states).length =
        (buildStats st.performance_counter_states).length := by
      simp [snapshotStats]
    intro hand
    obtain ⟨ht0, hge⟩ := hand
    rw [hlenstats] at hge
    rcases hok with hA | hB
    · exact hA ht0
    · omega
  refine ⟨fun j hj => frameEnds_take st es j h0 hj (by omega), ?_,
    fun i hi => by
      rw [clearSlots_getD_lt st.performance_counter_states
        st.snapshot_interval i hi hcap]
      rfl⟩
  have hsplit : es = es.take (st.snapshot_interval - 1) ++
      [es.getD (st.snapshot_interval - 1) 0] :=
    list_split_last es (st.snapshot_interval - 1) 0 (by omega)
  conv_lhs => rw [hsplit]
  rw [frameEnds_append,
    frameEnds_take st es (st.snapshot_interval - 1) h0 (by omega) (by omega)]
  show frameEnds [es.getD (st.snapshot_interval - 1) 0]
      { st with
        frame_counter := st.snapshot_interval - 1,
        frame_elapsed := if st.snapshot_interval - 1 = 0 then st.frame_elapsed
          else es.getD (st.snapshot_interval - 1 - 1) 0 } = _
  simp only [frameEnds, List.foldlM_cons, List.foldlM_nil]
  rw [frame_end_cases]
  have hcond : st.snapshot_interval ≤ (st.snapshot_interval - 1) + 1 := by
    omega
  simp only [hcond, if_pos, if_true]
  rw [take_snapshot_eq_some
    { st with
      frame_counter := st.snapshot_interval - 1 + 1,
      frame_elapsed := es.getD (st.snapshot_interval - 1) 0 } hcond2]
  rfl

/-- Counterexample to C4 as stated: from the initial state set interval 1 and
close two distinct identities that both measure 0 ns; the single (= interval)
`frame_end` call reaches the aggregator with total elapsed 0 and two
accumulators, whose NaN percents make `sort_by(partial_cmp().unwrap())`
panic (`none`): no statistics-log entry is written, the frame counter is not
reset, and the slots are not cleared. -/
theorem frame_end_interval_cex :
    runOps ProfileState.initial
      [ProfOp.updateInterval 1,
       ProfOp.dropBlock
         { manual_drop := false, thread_id := 1, name := "x", file_name := "g", line := 1 } 0 1,
       ProfOp.dropBlock
         { manual_drop := false, thread_id := 1, name := "y", file_name := "g", line := 1 } 0 1,
       ProfOp.frameEnd 0] = none := by
  rfl

/-- Witness for the amended C4 on the initial state (interval 3, empty
slots) with frame durations 1, 2, 3 ns. -/
theorem frame_end_interval_witness :
    frameEnds ([1, 2, 3].take 1) ProfileState.initial =
      some { ProfileState.initial with
          frame_counter := 1,
          frame_elapsed := if 1 = 0 then ProfileState.initial.frame_elapsed
            else [1, 2, 3].getD 0 0 } ∧
    frameEnds [1, 2, 3] ProfileState.initial =
      some { ProfileState.initial with
          frame_counter := 0,
          frame_elapsed :=
            [1, 2, 3].getD (ProfileState.initial.snapshot_interval - 1) 0,
          snapshot_counter := nextSc ProfileState.initial.snapshot_counter,
          performance_counter_log :=
            ProfileState.initial.performance_counter_log.set
              (nextSc ProfileState.initial.snapshot_counter)
              ⟨snapshotSorted ProfileState.initial.performance_counter_states⟩,
          performance_counter_states :=
            clearSlots ProfileState.initial.performance_counter_states
              ProfileState.initial.snapshot_interval } ∧
    ((clearSlots ProfileState.initial.performance_counter_states
        ProfileState.initial.snapshot_interval).getD 0 default).records = [] :=
  have h := frame_end_interval ProfileState.initial [1, 2, 3] rfl rfl
    (by decide) (by decide) (Or.inr (by decide))
  ⟨h.1 1 (by decide), h.2.1, h.2.2 0 (by decide)⟩

/-! ### Aggregator accumulation (claim C5) -/

/-- Folding raw records into one statistics accumulator. -/
def accRecs (init : PerformanceCounterStatisticsRecord)
    (ms : List ClocsDebugRecord) : PerformanceCounterStatisticsRecord :=
  ms.foldl (fun r rec => updStat rec r) init

theorem statLookup_statInsert (m : List (String × PerformanceCounterStatisticsRecord))
    (rec : ClocsDebugRecord) (k : String) :
    statLookup k (statInsert m rec) =
      if statKey rec.name rec.file_name rec.line = k then
        some (updStat rec ((statLookup k m).getD default))
      else
        statLookup k m := by
  induction m with
  | nil =>
      by_cases h : statKey rec.name rec.file_name rec.line = k
      · simp [statInsert, statLookup, h]
      · simp [statInsert, statLookup, h]
  | cons p rest ih =>
      obtain ⟨k2, r⟩ := p
      by_cases h1 : k2 = statKey rec.name rec.file_name rec.line
      · by_cases h2 : statKey rec.name rec.file_name rec.line = k
        · simp [statInsert, statLookup, h1, h2]
        · have h3 : ¬ (k2 = k) := by rw [h1]; exact h2
          simp [statInsert, statLookup, h1, h2, h3]
      · by_cases h3 : k2 = k
        · have h2 : ¬ (statKey rec.name rec.file_name rec.line = k) := by
            intro h4
            exact h1 (h3.trans h4.symm)
          have h4 : ¬ (k = statKey rec.name rec.file_name rec.line) :=
            fun h5 => h2 h5.symm
          simp [statInsert, statLookup, h1, h2, h3, h4]
        · simp [statInsert, statLookup, h1, h3, ih]

theorem statLookup_foldl (recs : List ClocsDebugRecord) (k : String) :
    statLookup k (recs.foldl statInsert []) =
      if (recs.filter
          (fun rec => statKey rec.name rec.file_name rec.line == k)) = [] then
        none
      else
        some (accRecs default
          (recs.filter
            (fun rec => statKey rec.name rec.file_name rec.line == k))) := by
  induction recs using List.reverseRecOn with
  | nil => simp [statLookup]
  | append_singleton A x ih =>
      rw [List.foldl_append]
      show statLookup k (statInsert (A.foldl statInsert []) x) = _
      rw [statLookup_statInsert, List.filter_append]
      by_cases hx : statKey x.name x.file_name x.line = k
      · have hxb : (statKey x.name x.file_name x.line == k) = true := by
          simp [hx]
        rw [if_pos hx, ih]
        simp only [List.filter_cons, List.filter_nil, hxb, if_pos]
        by_cases hA : (A.filter
            (fun rec => statKey rec.name rec.file_name rec.line == k)) = []
        · simp [hA, accRecs]
        · simp only [hA, if_neg, ite_false, Option.getD_some]
          rw [if_neg (by simp)]
          simp [accRecs, List.foldl_append]
      · have hxb : (statKey x.name x.file_name x.line == k) = false := by
          simp [hx]
        rw [if_neg hx, ih]
        simp [List.filter_cons, hxb]

theorem accRecs_fields (ms : List ClocsDebugRecord) :
    ∀ (init : PerformanceCounterStatisticsRecord),
      (accRecs init ms).sum_elapsed =
        init.sum_elapsed + (ms.map (fun rec => rec.elapsed)).sum ∧
      (accRecs init ms).sum_hits =
        init.sum_hits + (ms.map (fun rec => rec.hits)).sum ∧
      (accRecs init ms).sum_hits_over_elapsed =
        init.sum_hits_over_elapsed +
          (ms.map (fun rec => rec.elapsed / rec.hits)).sum ∧
      (accRecs init ms).hits = init.hits + ms.length ∧
      (accRecs init ms).thread_id =
        (ms.map (fun rec => rec.thread_id)).getLastD init.thread_id := by
  induction ms with
  | nil => intro init; simp [accRecs]
  | cons rec rest ih =>
      intro init
      have hstep : accRecs init (rec :: rest) = accRecs (updStat rec init) rest :=
        rfl
      obtain ⟨ih1, ih2, ih3, ih4, ih5⟩ := ih (updStat rec init)
      rw [hstep]
      refine ⟨?_, ?_, ?_, ?_, ?_⟩
      · rw [ih1]
        show init.sum_elapsed + rec.elapsed + _ = _
        simp
        omega
      · rw [ih2]
        show init.sum_hits + rec.hits + _ = _
        simp
        omega
      · rw [ih3]
        show init.sum_hits_over_elapsed + rec.elapsed / rec.hits + _ = _
        simp
        omega
      · rw [ih4]
        show init.hits + 1 + _ = _
        simp
        omega
      · rw [ih5]
        show (rest.map (fun rec => rec.thread_id)).getLastD rec.thread_id = _
        rw [List.map_cons, List.getLastD_cons]

/-- Counterexample to C5 as stated ("per region identity"): the identities
`("a", "b1", 2)` and `("ab", "1", 2)` are distinct, but their concatenated
keys `name + file_name + line.to_string()` are both `"ab12"`, so the
aggregator merges them into a single accumulator (summed hit count 2,
elapsed 5 + 3 = 8, name/file/line overwritten by the later record) instead
of keeping one accumulator per region identity. -/
theorem aggregator_accumulates_cex :
    (runOps ProfileState.initial
      [ProfOp.dropBlock
         { manual_drop := false, thread_id := 1, name := "a", file_name := "b1", line := 2 } 5 1,
       ProfOp.dropBlock
         { manual_drop := false, thread_id := 1, name := "ab", file_name := "1", line := 2 } 3 1]).map
      (fun st => (buildStats st.performance_counter_states).map
        (fun p => (p.1, p.2.name, p.2.file_name, p.2.line,
          p.2.sum_elapsed, p.2.sum_hits))) =
    some [("ab12", "ab", "1", 2, 8, 2)] := by
  rfl

/-- Claim C5 (amended): the aggregator scans every frame sample slot of the
entire slot array in order, and accumulates per *stringified key*
`name + file_name + line.to_string()` (distinct identities whose
concatenations coincide share one accumulator): for the records matching a
key, `sum_elapsed` is the sum of their elapsed durations, `sum_hits` the sum
of their hit counts, `sum_hits_over_elapsed` the sum of the integer
quotients `elapsed / hits`, the frame-contribution counter `hits` is the
number of matching records, and the displayed thread identity is the last
matching record's thread identity. -/
theorem aggregator_accumulates (slots : List PerformanceCounterState)
    (k : String)
    (hk : k ∈ (allRecords slots).map
      (fun r => statKey r.name r.file_name r.line)) :
    statLookup k (buildStats slots) ≠ none ∧
    ((statLookup k (buildStats slots)).getD default).sum_elapsed =
      (((allRecords slots).filter
        (fun rec => statKey rec.name rec.file_name rec.line == k)).map
        (fun rec => rec.elapsed)).sum ∧
    ((statLookup k (buildStats slots)).getD default).sum_hits =
      (((allRecords slots).filter
        (fun rec => statKey rec.name rec.file_name rec.line == k)).map
        (fun rec => rec.hits)).sum ∧
    ((statLookup k (buildStats slots)).getD default).sum_hits_over_elapsed =
      (((allRecords slots).filter
        (fun rec => statKey rec.name rec.file_name rec.line == k)).map
        (fun rec => rec.elapsed / rec.hits)).sum ∧
    ((statLookup k (buildStats slots)).getD default).hits =
      ((allRecords slots).filter
        (fun rec => statKey rec.name rec.file_name rec.line == k)).length ∧
    ((statLookup k (buildStats slots)).getD default).thread_id =
      (((allRecords slots).filter
        (fun rec => statKey rec.name rec.file_name rec.line == k)).map
        (fun rec => rec.thread_id)).getLastD 0 := by
  have hms : (allRecords slots).filter
      (fun rec => statKey rec.name rec.file_name rec.line == k) ≠ [] := by
    obtain ⟨r, hr, hkey⟩ := List.mem_map.mp hk
    intro hnil
    have hmem : r ∈ (allRecords slots).filter
        (fun rec => statKey rec.name rec.file_name rec.line == k) :=
      List.mem_filter.mpr ⟨hr, by simp [hkey]⟩
    rw [hnil] at hmem
    exact absurd hmem (List.not_mem_nil r)
  have hlook : statLookup k (buildStats slots) =
      some (accRecs default ((allRecords slots).filter
        (fun rec => statKey rec.name rec.file_name rec.line == k))) := by
    show statLookup k ((allRecords slots).foldl statInsert []) = _
    rw [statLookup_foldl, if_neg hms]
  obtain ⟨hf1, hf2, hf3, hf4, hf5⟩ := accRecs_fields
    ((allRecords slots).filter
      (fun rec => statKey rec.name rec.file_name rec.line == k))
    default
  rw [hlook]
  simp only [Option.getD_some]
  refine ⟨by simp, ?_, ?_, ?_, ?_, ?_⟩
  · rw [hf1]
    exact Nat.zero_add _
  · rw [hf2]
    exact Nat.zero_add _
  · rw [hf3]
    exact Nat.zero_add _
  · rw [hf4]
    exact Nat.zero_add _
  · exact hf5

/-- Witness for the amended C5: two slots, each holding one record of
identity `("a", "f", 1)` (elapsed 5 hits 2, then elapsed 7 hits 1), queried
at key `"af1"`; the aggregation spans both slots. -/
theorem aggregator_accumulates_witness :
    statLookup "af1" (buildStats
      [⟨[{ name := "a", file_name := "f", line := 1, elapsed := 5, hits := 2,
           thread_id := 1 }]⟩,
       ⟨[{ name := "a", file_name := "f", line := 1, elapsed := 7, hits := 1,
           thread_id := 2 }]⟩]) ≠ none ∧
    ((statLookup "af1" (buildStats
      [⟨[{ name := "a", file_name := "f", line := 1, elapsed := 5, hits := 2,
           thread_id := 1 }]⟩,
       ⟨[{ name := "a", file_name := "f", line := 1, elapsed := 7, hits := 1,
           thread_id := 2 }]⟩])).getD default).sum_elapsed =
      (((allRecords
        [⟨[{ name := "a", file_name := "f", line := 1, elapsed := 5, hits := 2,
             thread_id := 1 }]⟩,
         ⟨[{ name := "a", file_name := "f", line := 1, elapsed := 7, hits := 1,
             thread_id := 2 }]⟩]).filter
        (fun rec => statKey rec.name rec.file_name rec.line == "af1")).map
        (fun rec => rec.elapsed)).sum ∧
    ((statLookup "af1" (buildStats
      [⟨[{ name := "a", file_name := "f", line := 1, elapsed := 5, hits := 2,
           thread_id := 1 }]⟩,
       ⟨[{ name := "a", file_name := "f", line := 1, elapsed := 7, hits := 1,
           thread_id := 2 }]⟩])).getD default).sum_hits =
      (((allRecords
        [⟨[{ name := "a", file_name := "f", line := 1, elapsed := 5, hits := 2,
             thread_id := 1 }]⟩,
         ⟨[{ name := "a", file_name := "f", line := 1, elapsed := 7, hits := 1,
             thread_id := 2 }]⟩]).filter
        (fun rec => statKey rec.name rec.file_name rec.line == "af1")).map
        (fun rec => rec.hits)).sum :=
  have h := aggregator_accumulates
    [⟨[{ name := "a", file_name := "f", line := 1, elapsed := 5, hits := 2,
         thread_id := 1 }]⟩,
     ⟨[{ name := "a", file_name := "f", line := 1, elapsed := 7, hits := 1,
         thread_id := 2 }]⟩] "af1" (by decide)
  ⟨h.1, h.2.1, h.2.2.1⟩
